import Mathlib

/-!
Verification development for the Pair_Programming_Server repository.

The repository ships two source files: the React client
(`frontend/src/App.jsx`) and `README.md`, which documents the FastAPI
backend (Socket.IO event handlers, session registry, autocomplete
endpoint).  The backend implementation itself is not in the repository,
so the server-side operations are modelled from the specification
(Session Registry, Broadcast Dispatcher, Autocomplete Suggestion
Engine), while everything client-side is embedded directly from
`App.jsx` and the transport field names from `README.md`.

Conventions: strings are Lean `String`s, the socket layer is modelled
as explicit lists of emitted events, and JavaScript timers are modelled
as an explicit pending-payload queue with separate "edit" and "fire"
transitions.
-/

/-- Error taxonomy of the server core (spec section 7). -/
inductive RegError
  | ValidationError
  | UnsupportedLanguage
  | NotFoundError
deriving Repr, DecidableEq

/-- A live participant: opaque connection id plus free-text display name. -/
structure Participant where
  connectionId : String
  displayName  : String
deriving Repr, DecidableEq

/-- A live room: shared code buffer, current language, member list
(duplicate display names allowed, so a list of participant records). -/
structure Room where
  code     : String
  language : String
  members  : List Participant
deriving Repr, DecidableEq

/-- Payload of an outbound server event: either a display-name list
(`userJoined`) or a single text value (`codeUpdate`, `languageUpdate`,
`userTyping`). -/
inductive Payload
  | nameList (names : List String)
  | text (s : String)
deriving Repr, DecidableEq

/-- One delivered outbound event: target connection, event name, payload. -/
structure Emit where
  target  : String
  event   : String
  payload : Payload
deriving Repr, DecidableEq

/-- Modelled from the spec: the Session Registry and Presence Tracker of
the missing backend (`rooms` map and `user_to_room` map named in the
README's design notes).  Association lists keyed by room id and by
connection id. -/
structure Registry where
  rooms    : List (String × Room)
  presence : List (String × String)
deriving Repr, DecidableEq

/-- The empty registry: no live rooms, no tracked connections. -/
def Registry.empty : Registry := ⟨[], []⟩

/-- Modelled from the spec: the Broadcast Dispatcher's fan-out.  Delivers
`ev` with payload `p` to every member of `members`, skipping
`skip` when given (the README's "Skip SID Pattern"). -/
def broadcastTo (members : List Participant) (ev : String) (p : Payload)
    (skip : Option String) : List Emit :=
  (members.filter (fun m =>
      match skip with
      | some sid => m.connectionId != sid
      | none     => true)).map
    (fun m => ⟨m.connectionId, ev, p⟩)

/-- Modelled from the spec: the default language used when a room is
created with no prior snapshot (README `models.py` gives `python`). -/
def defaultLanguage : String := "python"

/-- The fixed supported language set, taken from the client's language
selector options in `App.jsx` (javascript, python, java, cpp). -/
def supportedLanguages : List String := ["javascript", "python", "java", "cpp"]

/-- Modelled from the spec: `join(connectionId, roomId, displayName)` of
the missing backend registry.  Rejects empty room id or display name
with ValidationError and no side effects; otherwise adds the
participant to the (created-if-absent) room, updates the presence
index, and broadcasts `userJoined` with the full display-name list to
all members including the joiner.  Persistence-gateway hydration is
abstracted away: a room absent from the live registry starts with empty
code and the default language. -/
def join (st : Registry) (connId roomId name : String) :
    Except RegError (Registry × List Emit) :=
  if roomId = "" ∨ name = "" then .error .ValidationError
  else
    let room := (st.rooms.lookup roomId).getD ⟨"", defaultLanguage, []⟩
    let room' := { room with members := room.members ++ [⟨connId, name⟩] }
    .ok ({ rooms := (roomId, room') :: st.rooms.filter (fun p => p.1 != roomId),
           presence := (connId, roomId) :: st.presence.filter (fun p => p.1 != connId) },
         broadcastTo room'.members "userJoined"
           (.nameList (room'.members.map Participant.displayName)) none)

/-- Modelled from the spec: `leave(connectionId)` / `disconnect` of the
missing backend registry.  Unknown connections are a silent no-op;
otherwise the participant is removed, the presence index updated, and
the membership-changed event re-broadcast to the remaining members; an
emptied room is evicted from the live registry (the flush to the
persistence gateway is abstracted away). -/
def leave (st : Registry) (connId : String) : Registry × List Emit :=
  match st.presence.lookup connId with
  | none => (st, [])
  | some roomId =>
    let pres' := st.presence.filter (fun p => p.1 != connId)
    match st.rooms.lookup roomId with
    | none => ({ st with presence := pres' }, [])
    | some room =>
      let room' := { room with
        members := room.members.filter (fun m => m.connectionId != connId) }
      if room'.members.isEmpty then
        ({ rooms := st.rooms.filter (fun p => p.1 != roomId), presence := pres' }, [])
      else
        ({ rooms := (roomId, room') :: st.rooms.filter (fun p => p.1 != roomId),
           presence := pres' },
         broadcastTo room'.members "userJoined"
           (.nameList (room'.members.map Participant.displayName)) none)

/-- Modelled from the spec: `changeCode(connectionId, newCode)` of the
missing backend registry.  NotFoundError when the connection has no
current room; otherwise overwrites the buffer (last-writer-wins) and
broadcasts `codeUpdate` to the other members, sender excluded. -/
def changeCode (st : Registry) (connId newCode : String) :
    Except RegError (Registry × List Emit) :=
  match st.presence.lookup connId with
  | none => .error .NotFoundError
  | some roomId =>
    match st.rooms.lookup roomId with
    | none => .error .NotFoundError
    | some room =>
      let room' := { room with code := newCode }
      .ok ({ st with
              rooms := (roomId, room') :: st.rooms.filter (fun p => p.1 != roomId) },
           broadcastTo room.members "codeUpdate" (.text newCode) (some connId))

/-- Modelled from the spec: `changeLanguage(connectionId, newLanguage)` of
the missing backend registry.  UnsupportedLanguage outside the fixed
set (state untouched, nothing broadcast); otherwise overwrites the
room's language and broadcasts `languageUpdate` to the other members,
sender excluded. -/
def changeLanguage (st : Registry) (connId newLang : String) :
    Except RegError (Registry × List Emit) :=
  if newLang ∉ supportedLanguages then .error .UnsupportedLanguage
  else
    match st.presence.lookup connId with
    | none => .error .NotFoundError
    | some roomId =>
      match st.rooms.lookup roomId with
      | none => .error .NotFoundError
      | some room =>
        let room' := { room with language := newLang }
        .ok ({ st with
                rooms := (roomId, room') :: st.rooms.filter (fun p => p.1 != roomId) },
             broadcastTo room.members "languageUpdate" (.text newLang) (some connId))

/-- Modelled from the spec: `typingPing(connectionId)` of the missing
backend registry.  Stateless: broadcasts `userTyping` with the actor's
display name to the other members, sender excluded; no registry
mutation. -/
def typingPing (st : Registry) (connId : String) : List Emit :=
  match st.presence.lookup connId with
  | none => []
  | some roomId =>
    match st.rooms.lookup roomId with
    | none => []
    | some room =>
      let name :=
        ((room.members.find? (fun m => m.connectionId == connId)).map
          Participant.displayName).getD ""
      broadcastTo room.members "userTyping" (.text name) (some connId)

/-- Payload of a client-to-server socket emission, mirroring the object
literals passed to `socket.emit` in `App.jsx`. -/
inductive ClientPayload
  | joinInfo (roomId userName : String)
  | codeInfo (roomId code : String)
  | typingInfo (roomId userName : String)
  | langInfo (roomId language : String)
  | empty
deriving Repr, DecidableEq

/-- One client-to-server socket emission: event name plus payload. -/
structure ClientEmit where
  event   : String
  payload : ClientPayload
deriving Repr, DecidableEq

/-- The React component state of `App.jsx` (the `useState` hooks, in
declaration order). -/
structure AppState where
  joined      : Bool
  roomId      : String
  userName    : String
  language    : String
  code        : String
  copySuccess : String
  users       : List String
  typing      : String
  suggestion  : String
deriving Repr, DecidableEq

/-- The initial values of the `useState` hooks in `App.jsx`. -/
def initialState : AppState :=
  { joined := false, roomId := "", userName := "", language := "javascript",
    code := "// start code here", copySuccess := "", users := [],
    typing := "", suggestion := "" }

/-- The `joinRoom` handler of `App.jsx`: emits `join` and sets `joined`
only when both `roomId` and `userName` are truthy (non-empty). -/
def joinRoomClient (s : AppState) : AppState × List ClientEmit :=
  if s.roomId ≠ "" ∧ s.userName ≠ "" then
    ({ s with joined := true }, [⟨"join", .joinInfo s.roomId s.userName⟩])
  else (s, [])

/-- The `leaveRoom` handler of `App.jsx`: emits `leaveRoom` and resets
`joined`, `roomId`, `userName`, `code`, `language` and `suggestion`. -/
def leaveRoomClient (s : AppState) : AppState × List ClientEmit :=
  ({ s with joined := false, roomId := "", userName := "",
            code := "// start code here", language := "javascript",
            suggestion := "" },
   [⟨"leaveRoom", .empty⟩])

/-- The `handleBeforeUnload` listener of `App.jsx`: emits `leaveRoom`. -/
def handleBeforeUnloadEmits : List ClientEmit := [⟨"leaveRoom", .empty⟩]

/-- The `socket.on("userJoined")` handler of `App.jsx`:
`setUsers(users)`. -/
def clientUserJoined (s : AppState) (names : List String) : AppState :=
  { s with users := names }

/-- The `socket.on("codeUpdate")` handler of `App.jsx`. -/
def clientCodeUpdate (s : AppState) (newCode : String) : AppState :=
  { s with code := newCode }

/-- The `socket.on("languageUpdate")` handler of `App.jsx`. -/
def clientLanguageUpdate (s : AppState) (newLanguage : String) : AppState :=
  { s with language := newLanguage }

/-- The autocomplete timer ref and fetch log of `App.jsx`, modelled
explicitly: `pending` is the payload of the scheduled (not yet fired)
`setTimeout` callback — a list so that "at most one scheduled timer" is
a provable invariant rather than a typing artifact — and `fetched`
records the autocomplete requests actually sent. -/
structure DebounceState where
  pending : List String
  fetched : List String
deriving Repr, DecidableEq

/-- The initial timer state: `autocompleteTimerRef.current = null`. -/
def initDebounce : DebounceState := ⟨[], []⟩

/-- The `clearTimeout(autocompleteTimerRef.current)` step of
`handleCodeChange`. -/
def clearAutocompleteTimer (d : DebounceState) : DebounceState :=
  { d with pending := [] }

/-- The `setTimeout(..., 600)` step of `handleCodeChange`: schedules an
autocomplete fetch for `c`. -/
def scheduleAutocomplete (d : DebounceState) (c : String) : DebounceState :=
  { d with pending := d.pending ++ [c] }

/-- Expiry of the debounce window: every scheduled timer fires, issuing
its autocomplete fetch. -/
def fireAutocompleteTimers (d : DebounceState) : DebounceState :=
  { pending := [], fetched := d.fetched ++ d.pending }

/-- The timer portion of `handleCodeChange` in `App.jsx`: clear the
previous timer, then schedule a new one for the current code. -/
def handleCodeChangeTimers (d : DebounceState) (c : String) : DebounceState :=
  scheduleAutocomplete (clearAutocompleteTimer d) c

/-- A step of the client timer system: a local edit (running
`handleCodeChange`'s timer logic) or the 600ms debounce window
elapsing. -/
inductive DebounceOp
  | edit (c : String)
  | fire
deriving Repr, DecidableEq

/-- Apply one timer-system step. -/
def applyDebounceOp (d : DebounceState) : DebounceOp → DebounceState
  | .edit c => handleCodeChangeTimers d c
  | .fire   => fireAutocompleteTimers d

/-- The `handleCodeChange` handler of `App.jsx`: sets the code, emits
`codeChange` and `typing`, and re-arms the debounced autocomplete
timer. -/
def handleCodeChangeClient (s : AppState) (d : DebounceState)
    (newCode : String) : AppState × DebounceState × List ClientEmit :=
  ({ s with code := newCode },
   handleCodeChangeTimers d newCode,
   [⟨"codeChange", .codeInfo s.roomId newCode⟩,
    ⟨"typing", .typingInfo s.roomId s.userName⟩])

/-- The `handleLanguageChange` handler of `App.jsx`: sets the language,
emits `languageChange`, clears the suggestion. -/
def handleLanguageChangeClient (s : AppState) (newLanguage : String) :
    AppState × List ClientEmit :=
  ({ s with language := newLanguage, suggestion := "" },
   [⟨"languageChange", .langInfo s.roomId newLanguage⟩])

/-- Identifier/keyword characters for fragment extraction: alphanumerics
and underscore. -/
def isIdentChar (c : Char) : Bool := c.isAlphanum || c == '_'

/-- Modelled from the spec: fragment extraction of the missing backend's
suggestion engine.  Take the text before the cursor, cut it at the last
newline (the line prefix), and keep the longest trailing run of
identifier characters. -/
def fragmentAt (code : String) (cursorOffset : Nat) : String :=
  let pre := (code.toList.take cursorOffset).reverse
  let linePre := pre.takeWhile (fun c => c != '\n')
  String.mk (linePre.takeWhile isIdentChar).reverse

/-- One keyword-to-snippet entry of a per-language suggestion table. -/
structure SnippetEntry where
  key     : String
  snippet : String
deriving Repr, DecidableEq

/-- Modelled from the spec: the per-language keyword-to-snippet tables of
the missing backend.  Only the python `def` entry is documented (the
README's POST /autocomplete example); the remaining entries are
unknown, so the other languages' tables are left empty. -/
def tableFor (language : String) : List SnippetEntry :=
  if language = "python" then
    [⟨"def", "def function_name(param1, param2):\n    pass"⟩]
  else []

/-- Character-list prefix test (equivalent to string prefix, kept on
lists so that it computes by structural recursion). -/
def strIsPre (p s : String) : Bool := p.toList.isPrefixOf s.toList

/-- Matching policy of the suggestion engine: an entry matches when its
key extends the fragment or the (non-empty) fragment extends the key. -/
def entryMatches (key frag : String) : Bool :=
  strIsPre key frag || (frag != "" && strIsPre frag key)

/-- Length of the longest common leading segment of two character
lists (match specificity of a table key against the fragment). -/
def lcpLen : List Char → List Char → Nat
  | a :: as, b :: bs => if a = b then lcpLen as bs + 1 else 0
  | _, _ => 0

/-- The result record of the autocomplete boundary: an optional
`suggestion` and the ordered `allSuggestions` list (field names from
the README's POST /autocomplete response example). -/
structure SuggestResult where
  suggestion     : Option String
  allSuggestions : List String
deriving Repr, DecidableEq

/-- Modelled from the spec: the `suggest` function of the missing
backend's Autocomplete Suggestion Engine.  Validates the cursor bound
and the language, extracts the fragment, filters the per-language table
by the matching policy, and orders the matches by longest common
leading segment with the fragment (ties kept in table order).  No match
is a successful empty result, not an error. -/
def suggest (code : String) (cursorOffset : Nat) (language : String) :
    Except RegError SuggestResult :=
  if cursorOffset > code.length then .error .ValidationError
  else if language ∉ supportedLanguages then .error .UnsupportedLanguage
  else
    let frag := fragmentAt code cursorOffset
    let hits := (tableFor language).filter (fun e => entryMatches e.key frag)
    match hits with
    | [] => .ok ⟨none, []⟩
    | _ =>
      let ordered := ((List.range (frag.length + 1)).reverse).flatMap
        (fun n => hits.filter (fun e => lcpLen e.key.toList frag.toList = n))
      .ok ⟨(ordered.head?).map SnippetEntry.snippet,
           ordered.map SnippetEntry.snippet⟩

/-- Modelled from the spec: the POST /autocomplete endpoint of the
missing backend, bypassing the Session Registry entirely — the server
state is passed through untouched and the response is computed by the
pure `suggest` function alone. -/
def autocompleteEndpoint (st : Registry) (code : String) (cursorOffset : Nat)
    (language : String) : Registry × Except RegError SuggestResult :=
  (st, suggest code cursorOffset language)

/-- The JSON body built by `fetchAutocomplete` in `App.jsx`: keys `code`,
`cursorPosition`, `language`, in that order. -/
def clientAutocompleteBody (s : AppState) (currentCode : String)
    (cursorPos : Nat) : List (String × String) :=
  [("code", currentCode), ("cursorPosition", toString cursorPos),
   ("language", s.language)]

/-- The field names carried by the POST /autocomplete response, from the
README's response example: `suggestion` and `allSuggestions`. -/
def autocompleteResponseFields : List String := ["suggestion", "allSuggestions"]

/-- The response handling in `fetchAutocomplete` of `App.jsx`:
`if (data.suggestion) setSuggestion(data.suggestion)` — an absent (or
empty) suggestion leaves the state untouched and raises no error. -/
def clientApplySuggestion (s : AppState) (r : SuggestResult) : AppState :=
  match r.suggestion with
  | some sug => if sug ≠ "" then { s with suggestion := sug } else s
  | none => s

/-- A concrete two-member room used to exercise the registry operations:
Alice on connection `A`, Bob on connection `B`. -/
def demoRoom : Room :=
  ⟨"", "javascript", [⟨"A", "Alice"⟩, ⟨"B", "Bob"⟩]⟩

/-- A concrete registry with `demoRoom` live as `r1` and both
connections tracked. -/
def demoRegistry : Registry :=
  ⟨[("r1", demoRoom)], [("A", "r1"), ("B", "r1")]⟩

/-- A client state ready to join: room id and user name filled in. -/
def readyState : AppState :=
  { initialState with roomId := "r1", userName := "Alice" }

/-- The inbound event names claimed by the specification's external
interface section: `join`, `leave`/`disconnect`, `codeChange`,
`typing`, `languageChange`. -/
def claimedInboundEvents : List String :=
  ["join", "leave", "disconnect", "codeChange", "typing", "languageChange"]

/-- Every socket event name the client code can emit, collected from the
five emitting sites of `App.jsx` (`joinRoom`, `leaveRoom`,
`handleBeforeUnload`, `handleCodeChange`, `handleLanguageChange`)
evaluated at representative states. -/
def clientEmittedEventNames : List String :=
  (joinRoomClient readyState).2.map ClientEmit.event
  ++ (leaveRoomClient initialState).2.map ClientEmit.event
  ++ handleBeforeUnloadEmits.map ClientEmit.event
  ++ ((handleCodeChangeClient initialState initDebounce "x").2.2).map ClientEmit.event
  ++ (handleLanguageChangeClient initialState "python").2.map ClientEmit.event

/-- The user-list rendering of `App.jsx`: each entry is shown as
`{user.slice(0, 8)}...` — the first eight characters of the name with a
literal ellipsis appended. -/
def renderUser (u : String) : String := u.take 8 ++ "..."

/-- The displayed user list: the render applied to the stored `users`
state. -/
def renderedUsers (s : AppState) : List String := s.users.map renderUser

lemma broadcastTo_targets_skip (members : List Participant) (ev : String)
    (p : Payload) (sid : String) :
    (broadcastTo members ev p (some sid)).map Emit.target
      = (members.filter (fun m => m.connectionId != sid)).map
          Participant.connectionId := by
  simp only [broadcastTo, List.map_map]
  rfl

lemma broadcastTo_targets_all (members : List Participant) (ev : String)
    (p : Payload) :
    (broadcastTo members ev p none).map Emit.target
      = members.map Participant.connectionId := by
  simp only [broadcastTo, List.filter_true, List.map_map]
  rfl

lemma skip_not_mem_broadcastTo (members : List Participant) (ev : String)
    (p : Payload) (sid : String) :
    sid ∉ (broadcastTo members ev p (some sid)).map Emit.target := by
  rw [broadcastTo_targets_skip]
  simp only [List.mem_map, List.mem_filter, bne_iff_ne, ne_eq, not_exists]
  rintro m ⟨⟨_, hne⟩, hcid⟩
  exact hne hcid

lemma broadcastTo_payload (members : List Participant) (ev : String)
    (p : Payload) (skip : Option String) :
    ∀ e ∈ broadcastTo members ev p skip, e.payload = p := by
  intro e he
  simp only [broadcastTo, List.mem_map] at he
  obtain ⟨m, _, rfl⟩ := he
  rfl

/-- C1: mutations are broadcast with anti-echo — for a connection `cid`
resolved to a live room, successful `changeCode`, `changeLanguage`, and
`typingPing` target exactly the other members' connections and never
the actor, while a `join` into the same room targets every member
including the joiner. -/
theorem anti_echo_and_membership_inclusion (st : Registry)
    (cid rid : String) (room : Room)
    (hp : st.presence.lookup cid = some rid)
    (hr : st.rooms.lookup rid = some room) :
    (∀ c st' es, changeCode st cid c = .ok (st', es) →
        es.map Emit.target
          = (room.members.filter (fun m => m.connectionId != cid)).map
              Participant.connectionId
        ∧ cid ∉ es.map Emit.target)
    ∧ (∀ l st' es, changeLanguage st cid l = .ok (st', es) →
        es.map Emit.target
          = (room.members.filter (fun m => m.connectionId != cid)).map
              Participant.connectionId
        ∧ cid ∉ es.map Emit.target)
    ∧ ((typingPing st cid).map Emit.target
          = (room.members.filter (fun m => m.connectionId != cid)).map
              Participant.connectionId
        ∧ cid ∉ (typingPing st cid).map Emit.target)
    ∧ (∀ cid2 name st' es, join st cid2 rid name = .ok (st', es) →
        es.map Emit.target
          = (room.members ++ [Participant.mk cid2 name]).map Participant.connectionId
        ∧ cid2 ∈ es.map Emit.target) := by
  refine ⟨?_, ?_, ?_, ?_⟩
  · intro c st' es hok
    simp only [changeCode, hp, hr] at hok
    injection hok with h
    injection h with h1 h2
    subst h2
    exact ⟨broadcastTo_targets_skip _ _ _ _, skip_not_mem_broadcastTo _ _ _ _⟩
  · intro l st' es hok
    simp only [changeLanguage] at hok
    by_cases hl : l ∉ supportedLanguages
    · simp [hl] at hok
    · simp only [hl, if_neg, ite_false, hp, hr] at hok
      injection hok with h
      injection h with h1 h2
      subst h2
      exact ⟨broadcastTo_targets_skip _ _ _ _, skip_not_mem_broadcastTo _ _ _ _⟩
  · simp only [typingPing, hp, hr]
    exact ⟨broadcastTo_targets_skip _ _ _ _, skip_not_mem_broadcastTo _ _ _ _⟩
  · intro cid2 name st' es hok
    simp only [join] at hok
    by_cases h0 : rid = "" ∨ name = ""
    · simp [h0] at hok
    · simp only [h0, ite_false, hr, Option.getD_some] at hok
      injection hok with h
      injection h with h1 h2
      subst h2
      constructor
      · exact broadcastTo_targets_all _ _ _
      · rw [broadcastTo_targets_all]
        exact List.mem_map.mpr ⟨Participant.mk cid2 name, by simp, rfl⟩

/-- Witness for C1: in the two-member demo room, a typing ping from
connection `A` reaches exactly `B` and never echoes to `A`. -/
theorem anti_echo_witness :
    (typingPing demoRegistry "A").map Emit.target
      = (demoRoom.members.filter (fun m => m.connectionId != "A")).map
          Participant.connectionId
    ∧ "A" ∉ (typingPing demoRegistry "A").map Emit.target := by
  have h := anti_echo_and_membership_inclusion demoRegistry "A" "r1" demoRoom
    rfl rfl
  exact ⟨h.2.2.1.1, h.2.2.1.2⟩

/-- C2 (amended): every membership-changed broadcast carries the
post-state display-name list of the affected room — for a successful
`join` all emitted events carry exactly the updated room's member
names, for a `leave` every emitted event carries the display-name list
of a room as stored in the post-state registry — the client's
`userJoined` handler stores the received list verbatim as its user
list, and the displayed list shows each received name truncated to its
first eight characters with an ellipsis appended. -/
theorem membership_broadcast_accuracy :
    (∀ st cid rid name st' es, join st cid rid name = .ok (st', es) →
        ∃ room', st'.rooms.lookup rid = some room'
          ∧ es ≠ []
          ∧ ∀ e ∈ es,
              e.payload = .nameList (room'.members.map Participant.displayName))
    ∧ (∀ st cid st' es, leave st cid = (st', es) →
        ∀ e ∈ es, ∃ rid room', st'.rooms.lookup rid = some room'
          ∧ e.payload = .nameList (room'.members.map Participant.displayName))
    ∧ (∀ s names, (clientUserJoined s names).users = names)
    ∧ (∀ s names, renderedUsers (clientUserJoined s names)
        = names.map (fun u => u.take 8 ++ "...")) := by
  refine ⟨?_, ?_, fun s names => rfl, fun s names => rfl⟩
  · intro st cid rid name st' es hok
    simp only [join] at hok
    by_cases h0 : rid = "" ∨ name = ""
    · simp [h0] at hok
    · simp only [h0, ite_false] at hok
      injection hok with h
      injection h with h1 h2
      subst h1
      subst h2
      refine ⟨{ (st.rooms.lookup rid).getD ⟨"", defaultLanguage, []⟩ with
                members := ((st.rooms.lookup rid).getD
                    ⟨"", defaultLanguage, []⟩).members
                  ++ [Participant.mk cid name] }, ?_, ?_, ?_⟩
      · simp [List.lookup]
      · simp [broadcastTo]
      · exact broadcastTo_payload _ _ _ _
  · intro st cid st' es hleq
    cases hpl : st.presence.lookup cid with
    | none =>
      simp only [leave, hpl] at hleq
      injection hleq with h1 h2
      subst h2
      intro e he
      simp at he
    | some roomId =>
      simp only [leave, hpl] at hleq
      cases hrl : st.rooms.lookup roomId with
      | none =>
        simp only [hrl] at hleq
        injection hleq with h1 h2
        subst h2
        intro e he
        simp at he
      | some room =>
        simp only [hrl] at hleq
        by_cases hemp :
            (room.members.filter (fun m => m.connectionId != cid)).isEmpty
        · simp only [hemp, ite_true] at hleq
          injection hleq with h1 h2
          subst h2
          intro e he
          simp at he
        · simp only [hemp, ite_false] at hleq
          injection hleq with h1 h2
          subst h1
          subst h2
          intro e he
          refine ⟨roomId, { room with
              members := room.members.filter (fun m => m.connectionId != cid) },
            ?_, ?_⟩
          · simp [List.lookup]
          · exact broadcastTo_payload _ _ _ _ e he

/-- Witness for C2: joining the empty registry as Alice produces a state
whose only room holds exactly Alice, a non-empty broadcast whose every
event carries that display-name list, and the client handler stores the
list. -/
theorem membership_accuracy_witness :
    (∃ room',
        (Registry.mk [("r1", Room.mk "" defaultLanguage [Participant.mk "A" "Alice"])]
            [("A", "r1")]).rooms.lookup "r1" = some room'
        ∧ ([Emit.mk "A" "userJoined" (Payload.nameList ["Alice"])] : List Emit) ≠ []
        ∧ ∀ e ∈ ([Emit.mk "A" "userJoined" (Payload.nameList ["Alice"])] : List Emit),
            e.payload = .nameList (room'.members.map Participant.displayName))
    ∧ (clientUserJoined initialState ["Alice"]).users = ["Alice"]
    ∧ renderedUsers (clientUserJoined initialState ["Christopher"])
        = ["Christopher"].map (fun u => u.take 8 ++ "...") :=
  ⟨membership_broadcast_accuracy.1 Registry.empty "A" "r1" "Alice" _ _ rfl,
   membership_broadcast_accuracy.2.2.1 initialState ["Alice"],
   membership_broadcast_accuracy.2.2.2 initialState ["Christopher"]⟩

/-- C2 counterexample: the displayed user list does not equal the
broadcast display-name list — a received name `Christopher` is
displayed as `Christop...`. -/
theorem users_render_counterexample :
    renderedUsers (clientUserJoined initialState ["Christopher"])
      ≠ ["Christopher"]
    ∧ renderedUsers (clientUserJoined initialState ["Christopher"])
      = ["Christop..."] := by decide

/-- C3 counterexample: the client emits a socket event named `leaveRoom`,
which is not among the names `join`, `leave`, `disconnect`,
`codeChange`, `typing`, `languageChange` claimed for the inbound
interface. -/
theorem inbound_events_counterexample :
    "leaveRoom" ∈ clientEmittedEventNames
    ∧ "leaveRoom" ∉ claimedInboundEvents := by decide

/-- C3 (amended): the inbound socket events emitted by the client are
exactly `join`, `leaveRoom`, `codeChange`, `typing`, and
`languageChange` — the deduplicated catalog of emitting sites equals
that list, and each handler emits only the listed names. -/
theorem inbound_events_amended :
    clientEmittedEventNames.dedup
      = ["join", "leaveRoom", "codeChange", "typing", "languageChange"]
    ∧ (∀ s, (joinRoomClient s).2.map ClientEmit.event = ["join"]
          ∨ (joinRoomClient s).2.map ClientEmit.event = [])
    ∧ (∀ s, (leaveRoomClient s).2.map ClientEmit.event = ["leaveRoom"])
    ∧ handleBeforeUnloadEmits.map ClientEmit.event = ["leaveRoom"]
    ∧ (∀ s d c, ((handleCodeChangeClient s d c).2.2).map ClientEmit.event
          = ["codeChange", "typing"])
    ∧ (∀ s l, (handleLanguageChangeClient s l).2.map ClientEmit.event
          = ["languageChange"]) := by
  refine ⟨by decide, ?_, fun s => rfl, rfl, fun s d c => rfl, fun s l => rfl⟩
  intro s
  by_cases h : s.roomId ≠ "" ∧ s.userName ≠ ""
  · left
    simp [joinRoomClient, h]
  · right
    simp [joinRoomClient, h]

/-- C4: a join with an empty room id or an empty display name fails with
ValidationError on the server model with no state change and no
broadcast, and the client's `joinRoom` guard likewise emits nothing and
leaves the client state untouched. -/
theorem join_validation :
    (∀ st cid rid name, rid = "" ∨ name = "" →
        join st cid rid name = Except.error RegError.ValidationError)
    ∧ (∀ s : AppState, s.roomId = "" ∨ s.userName = "" →
        joinRoomClient s = (s, [])) := by
  constructor
  · intro st cid rid name h0
    simp [join, h0]
  · intro s h0
    have h : ¬(s.roomId ≠ "" ∧ s.userName ≠ "") := by tauto
    simp [joinRoomClient, h]

/-- Witness for C4: an empty room id is rejected by the server model, and
the initial client state (empty fields) emits no join. -/
theorem join_validation_witness :
    join Registry.empty "A" "" "Alice" = Except.error RegError.ValidationError
    ∧ joinRoomClient initialState = (initialState, []) :=
  ⟨join_validation.1 Registry.empty "A" "" "Alice" (Or.inl rfl),
   join_validation.2 initialState (Or.inl rfl)⟩

/-- C5 counterexample: the autocomplete response carries no field named
`alternatives` (its sequence field is `allSuggestions`), and the client
request body names its cursor field `cursorPosition`, not
`cursorOffset`. -/
theorem autocomplete_fields_counterexample :
    "alternatives" ∉ autocompleteResponseFields
    ∧ (clientAutocompleteBody initialState "" 0).map Prod.fst
        ≠ ["code", "cursorOffset", "language"] := by decide

/-- C5 (amended): the autocomplete boundary is the pure `suggest`
function of (code, cursorPosition, language); the client request body
carries exactly the fields `code`, `cursorPosition`, `language` and the
response exactly `suggestion` and `allSuggestions`. -/
theorem autocomplete_fields_amended :
    (∀ s c p, (clientAutocompleteBody s c p).map Prod.fst
        = ["code", "cursorPosition", "language"])
    ∧ autocompleteResponseFields = ["suggestion", "allSuggestions"]
    ∧ (∀ st c p l, autocompleteEndpoint st c p l = (st, suggest c p l)) :=
  ⟨fun _ _ _ => rfl, rfl, fun _ _ _ _ => rfl⟩

/-- C6: changing to a language outside the supported set fails with
UnsupportedLanguage — the operation returns no new state and no
broadcast, so the room's language is retained — while changing to a
supported language overwrites the room's language and broadcasts
`languageUpdate` to exactly the other members, never the actor. -/
theorem language_validation (st : Registry) (cid rid : String) (room : Room)
    (hp : st.presence.lookup cid = some rid)
    (hr : st.rooms.lookup rid = some room) :
    (∀ l, l ∉ supportedLanguages →
        changeLanguage st cid l = Except.error RegError.UnsupportedLanguage)
    ∧ (∀ l, l ∈ supportedLanguages →
        ∃ st' es, changeLanguage st cid l = .ok (st', es)
          ∧ st'.rooms.lookup rid = some { room with language := l }
          ∧ es.map Emit.target
              = (room.members.filter (fun m => m.connectionId != cid)).map
                  Participant.connectionId
          ∧ cid ∉ es.map Emit.target) := by
  constructor
  · intro l hl
    simp [changeLanguage, hl]
  · intro l hl
    refine ⟨{ st with rooms := (rid, { room with language := l })
                :: st.rooms.filter (fun p => p.1 != rid) },
            broadcastTo room.members "languageUpdate" (.text l) (some cid),
            ?_, ?_, ?_, ?_⟩
    · simp [changeLanguage, hl, hp, hr]
    · simp [List.lookup]
    · exact broadcastTo_targets_skip _ _ _ _
    · exact skip_not_mem_broadcastTo _ _ _ _

/-- Witness for C6: in the demo room, `cobol` is rejected and `python`
succeeds, updating the stored language and reaching only Bob. -/
theorem language_validation_witness :
    changeLanguage demoRegistry "A" "cobol"
      = Except.error RegError.UnsupportedLanguage
    ∧ ∃ st' es, changeLanguage demoRegistry "A" "python" = .ok (st', es)
        ∧ st'.rooms.lookup "r1" = some { demoRoom with language := "python" }
        ∧ es.map Emit.target
            = (demoRoom.members.filter (fun m => m.connectionId != "A")).map
                Participant.connectionId
        ∧ "A" ∉ es.map Emit.target := by
  have h := language_validation demoRegistry "A" "r1" demoRoom rfl rfl
  exact ⟨h.1 "cobol" (by decide), h.2 "python" (by decide)⟩

/-- C7: an in-bounds autocomplete request in a supported language whose
fragment matches no entry of the per-language table yields a successful
result with no suggestion and no alternatives — not an error — and the
client applies such a response as a no-op. -/
theorem no_match_success (code : String) (cursorOffset : Nat)
    (language : String)
    (hb : cursorOffset ≤ code.length)
    (hl : language ∈ supportedLanguages)
    (hm : ∀ e ∈ tableFor language,
        entryMatches e.key (fragmentAt code cursorOffset) = false) :
    suggest code cursorOffset language = .ok ⟨none, []⟩
    ∧ ∀ s, clientApplySuggestion s ⟨none, []⟩ = s := by
  constructor
  · have hfil : (tableFor language).filter
        (fun e => entryMatches e.key (fragmentAt code cursorOffset)) = [] := by
      rw [List.filter_eq_nil_iff]
      intro e he
      simp [hm e he]
    simp [suggest, Nat.not_lt.mpr hb, hl, hfil]
  · intro s
    rfl

/-- Witness for C7: the fragment `zzz` matches nothing in the python
table, the request succeeds with an empty result, and the client state
is unchanged. -/
theorem no_match_success_witness :
    suggest "zzz" 3 "python" = .ok ⟨none, []⟩
    ∧ clientApplySuggestion initialState ⟨none, []⟩ = initialState := by
  have h := no_match_success "zzz" 3 "python" (by decide) (by decide) (by decide)
  exact ⟨h.1, h.2 initialState⟩

/-- C8: the autocomplete endpoint is deterministic and stateless — it
never changes the server registry, its response is independent of the
registry, and a repeated call after a first call returns the identical
response. -/
theorem suggestion_determinism :
    (∀ st code cursorOffset language,
        (autocompleteEndpoint st code cursorOffset language).1 = st)
    ∧ (∀ st1 st2 code cursorOffset language,
        (autocompleteEndpoint st1 code cursorOffset language).2
          = (autocompleteEndpoint st2 code cursorOffset language).2)
    ∧ (∀ st code cursorOffset language,
        (autocompleteEndpoint
            (autocompleteEndpoint st code cursorOffset language).1
            code cursorOffset language).2
          = (autocompleteEndpoint st code cursorOffset language).2) :=
  ⟨fun _ _ _ _ => rfl, fun _ _ _ _ _ => rfl, fun _ _ _ _ => rfl⟩

/-- C9: leaving a room resets `joined`, `roomId`, `userName`, `code`,
`language`, and `suggestion` to their initial values while leaving
`users`, `typing`, and `copySuccess` untouched — in particular the
previous room's user list persists. -/
theorem leave_room_frame (s : AppState) :
    (leaveRoomClient s).1.joined = initialState.joined
    ∧ (leaveRoomClient s).1.roomId = initialState.roomId
    ∧ (leaveRoomClient s).1.userName = initialState.userName
    ∧ (leaveRoomClient s).1.code = initialState.code
    ∧ (leaveRoomClient s).1.language = initialState.language
    ∧ (leaveRoomClient s).1.suggestion = initialState.suggestion
    ∧ (leaveRoomClient s).1.users = s.users
    ∧ (leaveRoomClient s).1.typing = s.typing
    ∧ (leaveRoomClient s).1.copySuccess = s.copySuccess :=
  ⟨rfl, rfl, rfl, rfl, rfl, rfl, rfl, rfl, rfl⟩

lemma applyDebounceOp_pending_le (d : DebounceState) (op : DebounceOp) :
    (applyDebounceOp d op).pending.length ≤ 1 := by
  cases op with
  | edit c =>
    simp [applyDebounceOp, handleCodeChangeTimers, scheduleAutocomplete,
      clearAutocompleteTimer]
  | fire =>
    simp [applyDebounceOp, fireAutocompleteTimers]

lemma foldl_debounce_pending_le (ops : List DebounceOp) (d : DebounceState)
    (h : d.pending.length ≤ 1) :
    (ops.foldl applyDebounceOp d).pending.length ≤ 1 := by
  induction ops generalizing d with
  | nil => exact h
  | cons op ops ih =>
    exact ih (applyDebounceOp d op) (applyDebounceOp_pending_le d op)

lemma foldl_edits_last (edits : List String) (d : DebounceState) (c : String)
    (h : edits.getLast? = some c) :
    edits.foldl handleCodeChangeTimers d = ⟨[c], d.fetched⟩ := by
  induction edits generalizing d with
  | nil => simp at h
  | cons e es ih =>
    cases es with
    | nil =>
      simp only [List.getLast?_singleton, Option.some.injEq] at h
      subst h
      simp [handleCodeChangeTimers, scheduleAutocomplete,
        clearAutocompleteTimer]
    | cons e' es' =>
      rw [List.getLast?_cons_cons] at h
      rw [List.foldl_cons, ih (handleCodeChangeTimers d e) h]
      rfl

/-- C10: at most one autocomplete timer is ever pending — every reachable
timer state has at most one scheduled fetch — and a burst of edits with
no intervening timer expiry, followed by the debounce window elapsing,
issues exactly one fetch, for the last edit's code. -/
theorem debounce_single_pending :
    (∀ ops : List DebounceOp,
        (ops.foldl applyDebounceOp initDebounce).pending.length ≤ 1)
    ∧ (∀ (d : DebounceState) (edits : List String) (c : String),
        edits.getLast? = some c →
        fireAutocompleteTimers (edits.foldl handleCodeChangeTimers d)
          = ⟨[], d.fetched ++ [c]⟩) := by
  constructor
  · intro ops
    exact foldl_debounce_pending_le ops initDebounce (by simp [initDebounce])
  · intro d edits c h
    rw [foldl_edits_last edits d c h]
    rfl

/-- Witness for C10: a burst of three edits on a fresh timer state keeps
a single pending timer and, once fired, fetches only the last code. -/
theorem debounce_single_pending_witness :
    (([DebounceOp.edit "a", DebounceOp.edit "b",
        DebounceOp.edit "c"].foldl applyDebounceOp initDebounce).pending.length
      ≤ 1)
    ∧ fireAutocompleteTimers
        (["a", "b", "c"].foldl handleCodeChangeTimers initDebounce)
        = ⟨[], initDebounce.fetched ++ ["c"]⟩ :=
  ⟨debounce_single_pending.1 _,
   debounce_single_pending.2 initDebounce ["a", "b", "c"] "c" rfl⟩
